import Mathlib

/-!
Shallow embedding of `bitbucket-repo-cleaner.py`, an interactive CLI that
lists and deletes Bitbucket branches, sparing a user-supplied protected
list and the repository's default branch.

The embedding models:
* the working directory as an association list from path to file content;
* Python's file line iteration (`for line in file`) and `str.strip`;
* `load_not_allowed_branches` with its `FileNotFoundError` / generic
  `Exception` handlers (a `None` filename raises `TypeError` in `open`,
  caught by the generic handler);
* `delete_branches` as an explicit loop producing the ordered trace of
  delete requests, parameterised by an oracle saying which remote delete
  calls fail (every failure is caught inside the loop body);
* `save_branches` as a file write of one display name per line;
* the `__main__` menu loop as an interpreter over a list of operator
  input lines, producing the list of dispatched actions and their effects.
-/

namespace BitbucketRepoCleaner

/-- A branch record as returned by the Bitbucket listing call: the fields
`displayId` and `isDefault` that `delete_branches` / `save_branches` read. -/
structure BranchRecord where
  displayId : String
  isDefault : Bool
deriving Repr, DecidableEq

/-- The working directory: an association list from file path to file
content (a single string, as written/read by Python file handles). -/
def FileSystem : Type := List (String × String)

/-- Look up a file's content; `none` models `FileNotFoundError`. -/
def fsRead (fs : FileSystem) (path : String) : Option String :=
  (List.find? (fun e => e.1 = path) fs).map (fun e => e.2)

/-- `open(path, "w")`: create or truncate, then write the whole content. -/
def fsWrite (fs : FileSystem) (path content : String) : FileSystem :=
  (path, content) :: List.filter (fun e => !(e.1 = path : Bool)) fs

/-- The ASCII whitespace set of Python's `str.strip` (Python also strips
Unicode spaces, immaterial here). -/
def pyIsSpace (c : Char) : Bool :=
  c = ' ' || c = '\t' || c = '\n' || c = '\r' || c = '\x0b' || c = '\x0c'

/-- Python `str.strip()`: drop leading and trailing whitespace. -/
def pyStrip (s : String) : String :=
  ⟨(((s.data.dropWhile pyIsSpace).reverse.dropWhile pyIsSpace).reverse)⟩

/-- Helper for `pyLines`: `cur` holds the reversed characters of the line
being scanned. -/
def pyLinesAux : List Char → List Char → List String
  | cur, [] => if cur.isEmpty then [] else [⟨cur.reverse⟩]
  | cur, '\n' :: rest => ⟨('\n' :: cur).reverse⟩ :: pyLinesAux [] rest
  | cur, c :: rest => pyLinesAux (c :: cur) rest

/-- Python file iteration: split content into lines, each keeping its
trailing `"\n"` except a final chunk not ending in a newline.
`"a\nb\n"` gives `["a\n", "b\n"]`, `"a\nb"` gives `["a\n", "b"]`,
`""` gives `[]`. -/
def pyLines (s : String) : List String :=
  pyLinesAux [] s.data

/-- Result of Python `open(FILENAME, "r")` in `load_not_allowed_branches`:
either a handle on the lines, or `FileNotFoundError`, or `TypeError`
(raised when the global `FILENAME` is still `None`). -/
inductive OpenResult where
  | handle (lines : List String)
  | fileNotFound
  | typeError
deriving Repr, DecidableEq

/-- `open(filename, "r")` with the global `FILENAME` modelled as an
`Option String` (`none` = the initial Python `None`). -/
def openForRead (fs : FileSystem) (filename : Option String) : OpenResult :=
  match filename with
  | none => .typeError
  | some path =>
    match fsRead fs path with
    | none => .fileNotFound
    | some content => .handle (pyLines content)

/-- `load_not_allowed_branches()`: reads `FILENAME`, strips every line;
`FileNotFoundError` and every other `Exception` are caught, a message is
printed, and the (still empty) `lines` list is returned. -/
def load_not_allowed_branches (fs : FileSystem) (filename : Option String) :
    List String :=
  match openForRead fs filename with
  | .handle rawLines => rawLines.map pyStrip
  | .fileNotFound => []
  | .typeError => []

/-- The two skip guards of the `delete_branches` loop body: a branch is
deleted only if its display name is not in the protected list and its
default flag is unset. -/
def deletable (notAllowed : List String) (b : BranchRecord) : Bool :=
  !(decide (b.displayId ∈ notAllowed)) && !b.isDefault

/-- One entry of the deletion trace: the branch record for which a delete
request was issued, and whether the remote call succeeded (`false` means
the `except Exception` handler printed a failure message). -/
structure DeleteAttempt where
  branch : BranchRecord
  succeeded : Bool
deriving Repr, DecidableEq

/-- The `for branch in get_branches()` loop of `delete_branches`:
skip protected names, skip the default branch, otherwise issue one delete
request whose outcome is given by `deleteOk`; a failed request is caught
inside the loop body, so iteration always continues. Returns the ordered
trace of issued delete requests. -/
def delete_branches_loop (deleteOk : String → Bool) (notAllowed : List String) :
    List BranchRecord → List DeleteAttempt
  | [] => []
  | b :: rest =>
    if b.displayId ∈ notAllowed then
      delete_branches_loop deleteOk notAllowed rest
    else if b.isDefault then
      delete_branches_loop deleteOk notAllowed rest
    else
      ⟨b, deleteOk b.displayId⟩ :: delete_branches_loop deleteOk notAllowed rest

/-- `delete_branches()`: load the protected list from the global
`FILENAME`, then run the deletion loop over the branch listing. -/
def delete_branches (deleteOk : String → Bool) (fs : FileSystem)
    (filename : Option String) (branches : List BranchRecord) :
    List DeleteAttempt :=
  delete_branches_loop deleteOk (load_not_allowed_branches fs filename) branches

/-- The snapshot file name `f"branches-{REPOSITORY_SLUG}-{date_str}.txt"`.
The slug is the global `REPOSITORY_SLUG`; a still-unset (`None`) slug is
interpolated by the f-string as the text `"None"`. -/
def snapshot_filename (slug : Option String) (dateStr : String) : String :=
  "branches-" ++ (match slug with | none => "None" | some s => s) ++
    "-" ++ dateStr ++ ".txt"

/-- The content `save_branches` writes: each `item["displayId"]` followed
by `"\n"`, in listing order. -/
def snapshot_content (branches : List BranchRecord) : String :=
  String.join (branches.map (fun b => b.displayId ++ "\n"))

/-- `save_branches()`: open the dated snapshot file in `"w"` mode
(truncating any existing file) and write one display name per line. -/
def save_branches (fs : FileSystem) (slug : Option String) (dateStr : String)
    (branches : List BranchRecord) : FileSystem :=
  fsWrite fs (snapshot_filename slug dateStr) (snapshot_content branches)

/-- The mutable operator-set globals of the script: `FILENAME`,
`PROJECT_KEY`, `REPOSITORY_SLUG`, all initially Python `None`. -/
structure ProgState where
  filename : Option String
  projectKey : Option String
  repositorySlug : Option String
deriving Repr, DecidableEq

/-- The initial global state: every operator-set global is `None`. -/
def initState : ProgState := ⟨none, none, none⟩

/-- Observable actions dispatched by the menu loop, with the data each
one reads or writes. -/
inductive Event where
  | setFilename (f : String)
  | setProjectKey (k : String)
  | setRepositorySlug (s : String)
  | getProjectDetails
  | getRepositoryDetails
  | getBranchesCall
  | saveBranchesCall (path content : String)
  | showNotAllowed (result : List String)
  | deleteBranchesCall
  | deleteRequest (a : DeleteAttempt)
deriving Repr, DecidableEq

/-- The `while True` menu loop of `__main__`, interpreted over a list of
operator input lines (each `input()` call consumes one line; an exhausted
input list halts the interpreter). `branches` is what the remote listing
call returns, `deleteOk` which remote delete calls succeed, `dateStr`
what `datetime.now().strftime("%Y-%m-%d")` yields. Every dispatched
action appends its events; any input whose stripped form is outside
`"0"`..`"8"` prints a goodbye and breaks the loop. -/
def menu_loop (branches : List BranchRecord) (deleteOk : String → Bool)
    (dateStr : String) :
    List String → ProgState → FileSystem → List Event × FileSystem
  | [], _, fs => ([], fs)
  | p :: rest, st, fs =>
    let t := pyStrip p
    if t = "0" then
      match rest with
      | [] => ([], fs)
      | f :: rest2 =>
        let fn := pyStrip f
        let (evs, fs') := menu_loop branches deleteOk dateStr rest2
          { st with filename := some fn } fs
        (.setFilename fn :: evs, fs')
    else if t = "1" then
      match rest with
      | [] => ([], fs)
      | k :: rest2 =>
        let key := pyStrip k
        let (evs, fs') := menu_loop branches deleteOk dateStr rest2
          { st with projectKey := some key } fs
        (.setProjectKey key :: evs, fs')
    else if t = "2" then
      match rest with
      | [] => ([], fs)
      | s :: rest2 =>
        let slug := pyStrip s
        let (evs, fs') := menu_loop branches deleteOk dateStr rest2
          { st with repositorySlug := some slug } fs
        (.setRepositorySlug slug :: evs, fs')
    else if t = "3" then
      let (evs, fs') := menu_loop branches deleteOk dateStr rest st fs
      (.getProjectDetails :: evs, fs')
    else if t = "4" then
      let (evs, fs') := menu_loop branches deleteOk dateStr rest st fs
      (.getRepositoryDetails :: evs, fs')
    else if t = "5" then
      let (evs, fs') := menu_loop branches deleteOk dateStr rest st fs
      (.getBranchesCall :: evs, fs')
    else if t = "6" then
      let path := snapshot_filename st.repositorySlug dateStr
      let content := snapshot_content branches
      let fsW := fsWrite fs path content
      let (evs, fs') := menu_loop branches deleteOk dateStr rest st fsW
      (.saveBranchesCall path content :: evs, fs')
    else if t = "7" then
      let r := load_not_allowed_branches fs st.filename
      let (evs, fs') := menu_loop branches deleteOk dateStr rest st fs
      (.showNotAllowed r :: evs, fs')
    else if t = "8" then
      let trace := delete_branches deleteOk fs st.filename branches
      let (evs, fs') := menu_loop branches deleteOk dateStr rest st fs
      (.deleteBranchesCall :: trace.map .deleteRequest ++ evs, fs')
    else
      ([], fs)

/-- What `argparse` leaves observable of the `--filename` flag: `main`
prints the parsed namespace (`print(args)`) and never reads the flag
again. -/
def argsPrinted (flag : Option String) : String :=
  "Namespace(filename=" ++
    (match flag with | none => "None" | some s => s) ++ ")"

/-- The whole `__main__` run after a successful API configuration: parse
and print the flag, then run the menu loop from the initial global state.
Returns the printed namespace line, the event trace and the final
working directory. -/
def main_run (branches : List BranchRecord) (deleteOk : String → Bool)
    (dateStr : String) (flag : Option String) (inputs : List String)
    (fs : FileSystem) : String × List Event × FileSystem :=
  (argsPrinted flag, menu_loop branches deleteOk dateStr inputs initState fs)

/-! Helper lemmas shared by the claim theorems. -/

/-- The deletion loop is exactly a filter of the listing followed by a
delete request per surviving branch. -/
theorem delete_branches_loop_eq_filter_map (ok : String → Bool)
    (na : List String) (bs : List BranchRecord) :
    delete_branches_loop ok na bs
      = (bs.filter (deletable na)).map (fun b => ⟨b, ok b.displayId⟩) := by
  induction bs with
  | nil => rfl
  | cons b rest ih =>
    by_cases h1 : b.displayId ∈ na
    · simp [delete_branches_loop, deletable, h1, ih]
    · by_cases h2 : b.isDefault
      · simp [delete_branches_loop, deletable, h1, h2, ih]
      · simp [delete_branches_loop, deletable, h1, h2, ih]

/-- Reading back a freshly written file yields the written content. -/
theorem fsRead_fsWrite_same (fs : FileSystem) (p c : String) :
    fsRead (fsWrite fs p c) p = some c := by
  simp [fsRead, fsWrite]

/-- The branches for which the deletion loop issues a request are exactly
the deletable ones, in listing order, for every failure pattern. -/
theorem delete_branches_loop_map_branch (ok : String → Bool)
    (na : List String) (bs : List BranchRecord) :
    (delete_branches_loop ok na bs).map DeleteAttempt.branch
      = bs.filter (deletable na) := by
  induction bs with
  | nil => rfl
  | cons b rest ih =>
    by_cases h1 : b.displayId ∈ na
    · simp [delete_branches_loop, deletable, h1, ih]
    · by_cases h2 : b.isDefault
      · simp [delete_branches_loop, deletable, h1, h2, ih]
      · simp [delete_branches_loop, deletable, h1, h2, ih]

/-- Unfolding the menu loop on the input `"8"`: one `delete_branches`
invocation, then the loop continues on the remaining inputs. -/
theorem menu_loop_step_8 (branches : List BranchRecord) (ok : String → Bool)
    (date : String) (rest : List String) (st : ProgState) (fs : FileSystem) :
    menu_loop branches ok date ("8" :: rest) st fs
      = (Event.deleteBranchesCall ::
          (delete_branches ok fs st.filename branches).map Event.deleteRequest
            ++ (menu_loop branches ok date rest st fs).1,
         (menu_loop branches ok date rest st fs).2) := by
  have h8 : pyStrip "8" = "8" := by decide
  rw [menu_loop.eq_def]
  simp [h8]

/-- Unfolding the menu loop on an input whose stripped form is outside
`"0"`..`"8"`: the loop breaks with no event and an unchanged directory. -/
theorem menu_loop_step_unrecognized (branches : List BranchRecord)
    (ok : String → Bool) (date : String) (rest : List String) (st : ProgState)
    (fs : FileSystem) (s : String)
    (h : pyStrip s ∉ (["0","1","2","3","4","5","6","7","8"] : List String)) :
    menu_loop branches ok date (s :: rest) st fs = ([], fs) := by
  simp only [List.mem_cons, List.mem_singleton, not_or] at h
  obtain ⟨h0, h1, h2, h3, h4, h5, h6, h7, h8, _⟩ := h
  rw [menu_loop.eq_def]
  simp [h0, h1, h2, h3, h4, h5, h6, h7, h8]

/-! Claim theorems. -/

/-- C1: for every branch list and every protected list loaded by
`load_not_allowed_branches`, `delete_branches` never issues a delete
request for a branch whose display name is in the protected list, nor for
a branch whose default flag is set, regardless of the order of the branch
list (the branch list and the failure oracle are universally
quantified). -/
theorem delete_never_targets_protected_or_default
    (ok : String → Bool) (fs : FileSystem) (filename : Option String)
    (branches : List BranchRecord) (a : DeleteAttempt)
    (h : a ∈ delete_branches ok fs filename branches) :
    a.branch.displayId ∉ load_not_allowed_branches fs filename ∧
      a.branch.isDefault = false := by
  rw [delete_branches, delete_branches_loop_eq_filter_map] at h
  simp only [List.mem_map] at h
  obtain ⟨b, hb, rfl⟩ := h
  have hd := List.of_mem_filter hb
  simp only [deletable, Bool.and_eq_true, Bool.not_eq_true',
    decide_eq_false_iff_not, Bool.not_eq_true] at hd
  exact hd

/-- Witness for C1 at a concrete protected file, branch list and issued
request. -/
theorem delete_never_targets_witness :
    ((⟨⟨"feat", false⟩, true⟩ : DeleteAttempt) ∈
        delete_branches (fun _ => true) [("f", "main\n")] (some "f")
          [⟨"main", false⟩, ⟨"dev", true⟩, ⟨"feat", false⟩]) ∧
      ((⟨⟨"feat", false⟩, true⟩ : DeleteAttempt).branch.displayId ∉
          load_not_allowed_branches [("f", "main\n")] (some "f") ∧
        (⟨⟨"feat", false⟩, true⟩ : DeleteAttempt).branch.isDefault = false) :=
  ⟨by decide,
    delete_never_targets_protected_or_default (fun _ => true) [("f", "main\n")]
      (some "f") [⟨"main", false⟩, ⟨"dev", true⟩, ⟨"feat", false⟩]
      ⟨⟨"feat", false⟩, true⟩ (by decide)⟩

/-- C2: even when the delete request of some deletable branch fails with
an exception (the failure oracle returns `false` on it), the loop still
issues a request for every deletable branch: the trace maps onto the full
filtered listing, so a per-branch failure never aborts the batch and the
remaining deletable branches are all attempted. -/
theorem delete_failure_tolerant
    (ok : String → Bool) (na : List String) (bs : List BranchRecord)
    (_hfail : ∃ b ∈ bs, deletable na b = true ∧ ok b.displayId = false) :
    (delete_branches_loop ok na bs).map DeleteAttempt.branch
      = bs.filter (deletable na) :=
  delete_branches_loop_map_branch ok na bs

/-- Witness for C2: every delete request fails, yet both deletable
branches are attempted. -/
theorem delete_failure_tolerant_witness :
    (∃ b ∈ ([⟨"x", false⟩, ⟨"y", false⟩] : List BranchRecord),
        deletable [] b = true ∧
          (fun _ => false : String → Bool) b.displayId = false) ∧
      (delete_branches_loop (fun _ => false) []
            [⟨"x", false⟩, ⟨"y", false⟩]).map DeleteAttempt.branch
        = ([⟨"x", false⟩, ⟨"y", false⟩] : List BranchRecord).filter
            (deletable []) :=
  ⟨by decide,
    delete_failure_tolerant (fun _ => false) [] [⟨"x", false⟩, ⟨"y", false⟩]
      (by decide)⟩

/-- C3: on a path that names no existing file, `load_not_allowed_branches`
returns the empty list; the `FileNotFoundError` is caught by its handler
(and, the function being total here, nothing propagates to the caller). -/
theorem load_missing_file_returns_empty (fs : FileSystem) (path : String)
    (h : fsRead fs path = none) :
    load_not_allowed_branches fs (some path) = [] := by
  simp [load_not_allowed_branches, openForRead, h]

/-- Witness for C3 at a directory holding only an unrelated file. -/
theorem load_missing_file_witness :
    fsRead [("g", "x")] "f" = none ∧
      load_not_allowed_branches [("g", "x")] (some "f") = [] :=
  ⟨by decide, load_missing_file_returns_empty [("g", "x")] "f" (by decide)⟩

/-- C4: when the global `FILENAME` is still its initial `None`, the
`TypeError` raised by `open(None)` is caught by the generic handler, so
`load_not_allowed_branches` returns the empty list and the batch deletion
proceeds with zero protected branches: a request is issued for exactly
the non-default branches. -/
theorem delete_with_unset_filename
    (ok : String → Bool) (fs : FileSystem) (bs : List BranchRecord) :
    load_not_allowed_branches fs none = [] ∧
      (delete_branches ok fs none bs).map DeleteAttempt.branch
        = bs.filter (fun b => !b.isDefault) := by
  refine ⟨rfl, ?_⟩
  rw [delete_branches]
  rw [show load_not_allowed_branches fs none = [] from rfl]
  rw [delete_branches_loop_map_branch]
  exact List.filter_congr (fun b _ => by simp [deletable])

/-- C5: the operator input `"8"` dispatches exactly one invocation of
`delete_branches` (the count of invocation events grows by exactly one)
and the loop continues on the remaining inputs; any input whose stripped
form is outside `"0"`..`"8"` terminates the loop with no event and an
unchanged working directory. -/
theorem menu_eight_dispatches_delete_once
    (branches : List BranchRecord) (ok : String → Bool) (date : String)
    (rest : List String) (st : ProgState) (fs : FileSystem) (s : String)
    (h : pyStrip s ∉ (["0","1","2","3","4","5","6","7","8"] : List String)) :
    ((menu_loop branches ok date ("8" :: rest) st fs).1.count
        Event.deleteBranchesCall
      = 1 + (menu_loop branches ok date rest st fs).1.count
        Event.deleteBranchesCall) ∧
      menu_loop branches ok date (s :: rest) st fs = ([], fs) := by
  refine ⟨?_, menu_loop_step_unrecognized _ _ _ _ _ _ _ h⟩
  rw [menu_loop_step_8]
  have hz : ∀ (l : List DeleteAttempt),
      (l.map Event.deleteRequest).count Event.deleteBranchesCall = 0 := by
    intro l
    rw [List.count_eq_zero]
    simp
  simp [List.count_cons, List.count_append, hz]
  omega

/-- Witness for C5 with the unrecognized input `"9"`. -/
theorem menu_eight_witness :
    (pyStrip "9" ∉ (["0","1","2","3","4","5","6","7","8"] : List String)) ∧
      (((menu_loop [⟨"a", false⟩] (fun _ => true) "d" ("8" :: ["q"]) initState
            []).1.count Event.deleteBranchesCall
        = 1 + (menu_loop [⟨"a", false⟩] (fun _ => true) "d" ["q"] initState
            []).1.count Event.deleteBranchesCall) ∧
        menu_loop [⟨"a", false⟩] (fun _ => true) "d" ("9" :: ["q"]) initState []
          = ([], [])) :=
  ⟨by decide,
    menu_eight_dispatches_delete_once [⟨"a", false⟩] (fun _ => true) "d" ["q"]
      initState [] "9" (by decide)⟩

/-- C6: on a file whose raw lines are `"main\n"`, `"  release \n"` and
`"\n"`, `load_not_allowed_branches` returns exactly
`["main", "release", ""]`: trimmed, order preserved, blank line kept as
the empty string. -/
theorem load_trims_and_preserves_lines :
    load_not_allowed_branches
        [("not-allowed-branches", "main\n  release \n\n")]
        (some "not-allowed-branches")
      = ["main", "release", ""] := by decide

/-- C7: with branch records `a` and `b`, slug `"repo1"` and date
`2024-01-02`, `save_branches` writes the file
`branches-repo1-2024-01-02.txt` whose entire content is `"a\nb\n"`. -/
theorem save_branches_writes_dated_snapshot :
    snapshot_filename (some "repo1") "2024-01-02"
        = "branches-repo1-2024-01-02.txt" ∧
      fsRead (save_branches [] (some "repo1") "2024-01-02"
          [⟨"a", false⟩, ⟨"b", false⟩]) "branches-repo1-2024-01-02.txt"
        = some "a\nb\n" := by decide

/-- C8: running `save_branches` twice on the same day and slug overwrites
the snapshot: reading the file afterwards gives what a single run over
the second listing produces. -/
theorem save_branches_overwrites (fs : FileSystem) (slug : Option String)
    (date : String) (bs1 bs2 : List BranchRecord) :
    fsRead (save_branches (save_branches fs slug date bs1) slug date bs2)
        (snapshot_filename slug date)
      = fsRead (save_branches fs slug date bs2) (snapshot_filename slug date) ∧
      fsRead (save_branches (save_branches fs slug date bs1) slug date bs2)
          (snapshot_filename slug date)
        = some (snapshot_content bs2) := by
  constructor <;> simp [save_branches, fsRead_fsWrite_same]

/-- C9: the sequence of delete requests is exactly the subsequence of
deletable branches in listing order: it equals the filtered listing (so
each deletable branch is requested once, with no sorting, batching or
retry) and is a sublist of the listing. -/
theorem delete_order_follows_listing (ok : String → Bool) (na : List String)
    (bs : List BranchRecord) :
    (delete_branches_loop ok na bs).map DeleteAttempt.branch
        = bs.filter (deletable na) ∧
      List.Sublist
        ((delete_branches_loop ok na bs).map DeleteAttempt.branch) bs := by
  have h := delete_branches_loop_map_branch ok na bs
  exact ⟨h, h ▸ List.filter_sublist bs⟩

/-- C10: the parsed `--filename` flag is only printed and never assigned
to the global `FILENAME`, so two runs differing only in the flag have
identical event traces (including every `load_not_allowed_branches`
result and every delete request) and identical final directories. -/
theorem filename_flag_noninterference (branches : List BranchRecord)
    (ok : String → Bool) (date : String) (flag1 flag2 : Option String)
    (inputs : List String) (fs : FileSystem) :
    (main_run branches ok date flag1 inputs fs).2
      = (main_run branches ok date flag2 inputs fs).2 := rfl

end BitbucketRepoCleaner
